import Mathlib

/-!
Verification development for the phitsmcpl converter (phitsmcpl.c):
bidirectional conversion between the MCPL portable particle format and
binary PHITS dump files.

Modelling conventions:
* C doubles are modelled as exact rationals (ℚ); the unit factors 1.0e6 and
  1.0e-6 become the exact rationals 1000000 and 1/1000000.
* Byte buffers are lists of UInt8; the Fortran record marker written by
  fwrite of a uint32_t/uint64_t is modelled little-endian (the layout used
  on the platforms the converter targets); both markers of a record carry
  the same value, so marker identity is representation independent.
* I/O effects (fwrite transferring fewer bytes than requested, fseek or
  fread failing) are modelled by explicit boolean oracles.
* The particle-code tables conv_code_pdg2phits / conv_code_phits2pdg and
  the record reader phits_load_particle live in phitsread.c, which is not
  part of the sources under verification; they are modelled from the spec
  where needed, as noted on the individual definitions.
-/

namespace PhitsMcpl

/-- An MCPL particle (mcpl_particle_t): PDG code, position (cm),
direction, polarisation, kinetic energy (MeV), statistical weight and
time (milliseconds). -/
@[ext] structure McplParticle where
  pdgcode : Int
  posx : ℚ
  posy : ℚ
  posz : ℚ
  dirx : ℚ
  diry : ℚ
  dirz : ℚ
  polx : ℚ
  poly : ℚ
  polz : ℚ
  ekin : ℚ
  weight : ℚ
  time : ℚ
  deriving DecidableEq

/-- The payload of one PHITS dump record: the 13 double fields
[type, x, y, z, dx, dy, dz, ekin, weight, time, polx, poly, polz].
The first field holds the (integral) PHITS kt type code. -/
@[ext] structure PhitsRecord where
  rawtype : Int
  x : ℚ
  y : ℚ
  z : ℚ
  dx : ℚ
  dy : ℚ
  dz : ℚ
  ekin : ℚ
  weight : ℚ
  time : ℚ
  polx : ℚ
  poly : ℚ
  polz : ℚ
  deriving DecidableEq

/-- The typed particle view exposed by the PHITS dump reader
(phits_particle_t): the raw PHITS kt code together with its standardized
PDG translation (0 when untranslatable), and the numeric fields. -/
@[ext] structure PhitsParticle where
  rawtype : Int
  pdgcode : Int
  x : ℚ
  y : ℚ
  z : ℚ
  dirx : ℚ
  diry : ℚ
  dirz : ℚ
  polx : ℚ
  poly : ℚ
  polz : ℚ
  ekin : ℚ
  weight : ℚ
  time : ℚ
  deriving DecidableEq

/-- Modelled from the spec: standard_code_to_legacy_code
(conv_code_pdg2phits, defined in phitsread.c which is not among the
sources under verification).  The spec describes it as a deterministic
total map returning 0 for unrepresentable codes, forming an inverse pair
with the legacy-to-standard map, and names the electron as a species with
both mappings; we model a small representative table (proton, neutron,
electron, photon with their PHITS kt codes), all other codes mapping
to 0. -/
def conv_code_pdg2phits (c : Int) : Int :=
  if c = 2212 then 1
  else if c = 2112 then 2
  else if c = 11 then 12
  else if c = 22 then 14
  else 0

/-- Modelled from the spec: legacy_code_to_standard_code
(conv_code_phits2pdg, defined in phitsread.c which is not among the
sources under verification); the inverse of the table above, 0 for
unknown legacy codes. -/
def conv_code_phits2pdg (k : Int) : Int :=
  if k = 1 then 2212
  else if k = 2 then 2112
  else if k = 12 then 11
  else if k = 14 then 22
  else 0

/-- The per-particle field translation of mcpl2phits (the dumpdata
assignments): type code via conv_code_pdg2phits, position, direction,
energy, weight and polarisation copied verbatim, time multiplied
by 1.0e-6 (milliseconds to nanoseconds). -/
def mcpl2phits_record (p : McplParticle) : PhitsRecord :=
  { rawtype := conv_code_pdg2phits p.pdgcode
    x := p.posx
    y := p.posy
    z := p.posz
    dx := p.dirx
    dy := p.diry
    dz := p.dirz
    ekin := p.ekin
    weight := p.weight
    time := p.time * (1 / 1000000)
    polx := p.polx
    poly := p.poly
    polz := p.polz }

/-- Modelled from the spec: the PHITS dump reader (phits_load_particle in
phitsread.c, not among the sources under verification) exposes each raw
record as a typed particle whose pdgcode field is the standardized
translation of the record's legacy type code and whose numeric fields are
the record's fields unchanged. -/
def phits_load_view (r : PhitsRecord) : PhitsParticle :=
  { rawtype := r.rawtype
    pdgcode := conv_code_phits2pdg r.rawtype
    x := r.x
    y := r.y
    z := r.z
    dirx := r.dx
    diry := r.dy
    dirz := r.dz
    polx := r.polx
    poly := r.poly
    polz := r.polz
    ekin := r.ekin
    weight := r.weight
    time := r.time }

/-- The per-particle field translation of phits2mcpl2 (the
mcpl_particle assignments inside the read loop): PDG code, position,
direction, polarisation, energy and weight copied verbatim, time
multiplied by 1.0e6 (nanoseconds to milliseconds). -/
def phits2mcpl2_fill (p : PhitsParticle) : McplParticle :=
  { pdgcode := p.pdgcode
    posx := p.x
    posy := p.y
    posz := p.z
    dirx := p.dirx
    diry := p.diry
    dirz := p.dirz
    polx := p.polx
    poly := p.poly
    polz := p.polz
    time := p.time * 1000000
    weight := p.weight
    ekin := p.ekin }

/-- The text heuristic phitsmcpl_buf_is_text: every byte must lie in
[9,13], in [32,126] or be at least 128. -/
def phitsmcpl_buf_is_text (buf : List UInt8) : Bool :=
  buf.all fun b =>
    decide ((9 ≤ b.toNat ∧ b.toNat ≤ 13) ∨ (32 ≤ b.toNat ∧ b.toNat ≤ 126) ∨ 128 ≤ b.toNat)

/-- Little-endian byte encoding of the value v as an unsigned integer of
w bytes; models the bytes fwrite emits for the uint32_t (w = 4) or
uint64_t (w = 8) record marker variable rl, into which the C code
converts the size_t payload length (truncating it modulo 2^(8w)). -/
def uintBytesLE (w : Nat) (v : Nat) : List UInt8 :=
  (List.range w).map fun i => UInt8.ofNat (v / 256 ^ i % 256)

/-- phits_writerecord: emit a leading marker holding the payload length,
the payload bytes, and a trailing marker identical to the leading one.
The booleans w1, w2, w3 model whether the three successive fwrite calls
transfer the full requested byte count; a short write makes
phits_writerecord call phits_error (fatal), leaving the stream truncated
after the bytes already emitted.  Result: (bytes emitted, completed
without phits_error). -/
def phits_writerecord (reclen : Nat) (buf : List UInt8) (w1 w2 w3 : Bool) :
    List UInt8 × Bool :=
  let m := uintBytesLE reclen buf.length
  if w1 = false then ([], false)
  else if w2 = false then (m, false)
  else if w3 = false then (m ++ buf, false)
  else (m ++ buf ++ m, true)

/-- Failure modes of phitsmcpl_file2buf, one per early-return error
branch of the C function. -/
inductive F2BError where
  | cantOpen
  | tooShort
  | tooLarge
  | cantRewind
  | readError
  | notText
  deriving DecidableEq

/-- Outcome of phitsmcpl_file2buf: the loaded buffer (none iff the C
function returns 0), the error branch taken, and whether the FILE handle
opened by the function was still open when it returned (leaked = opened
but never passed to fclose). -/
structure F2BOutcome where
  buf : Option (List UInt8)
  err : Option F2BError
  leaked : Bool
  deriving DecidableEq

/-- phitsmcpl_file2buf: load a whole file into a buffer.  The file system
is modelled by content (none = fopen fails), seekable (whether fseek to
SEEK_END succeeds; only then are the size checks applied, against the
constants 50 and 104857600 hardcoded in the C), rewindOk (fseek back to
the start) and readOk (the fread loop completes).  require_text gates the
phitsmcpl_buf_is_text check, which runs after fclose.  The leaked field
records that every early error return before the fclose call leaves the
handle open. -/
def phitsmcpl_file2buf (content : Option (List UInt8))
    (seekable rewindOk readOk : Bool) (require_text : Bool) : F2BOutcome :=
  match content with
  | none => { buf := none, err := some F2BError.cantOpen, leaked := false }
  | some data =>
    if seekable = true ∧ data.length < 50 then
      { buf := none, err := some F2BError.tooShort, leaked := true }
    else if seekable = true ∧ 104857600 < data.length then
      { buf := none, err := some F2BError.tooLarge, leaked := true }
    else if rewindOk = false then
      { buf := none, err := some F2BError.cantRewind, leaked := true }
    else if readOk = false then
      { buf := none, err := some F2BError.readError, leaked := true }
    else if require_text = true ∧ phitsmcpl_buf_is_text data = false then
      { buf := none, err := some F2BError.notText, leaked := false }
    else
      { buf := some data, err := none, leaked := false }

/-- The byte string "dump" ('d' 'u' 'm' 'p'), the substring both
ancillary files are required to contain. -/
def dumpWord : List UInt8 := [100, 117, 109, 112]

/-- Substring search, modelling the strstr check on the loaded ancillary
buffer. -/
def containsWord (pat : List UInt8) : List UInt8 → Bool
  | [] => pat.isEmpty
  | b :: rest => pat.isPrefixOf (b :: rest) || containsWord pat rest

/-- The file-system inputs for one ancillary file passed to
phitsmcpl_file2buf by phits2mcpl2. -/
structure AncFile where
  content : Option (List UInt8)
  seekable : Bool
  rewindOk : Bool
  readOk : Bool

/-- The ancillary-file gate of phits2mcpl2 for one optional file: load it
with phitsmcpl_file2buf (maxsize 104857600, require_text set) and require
the word "dump" in the loaded buffer; an absent option passes. -/
def anc_ok : Option AncFile → Bool
  | none => true
  | some a =>
    match (phitsmcpl_file2buf a.content a.seekable a.rewindOk a.readOk true).buf with
    | none => false
    | some data => containsWord dumpWord data

/-- The read loop of phits2mcpl2 over the typed particles delivered by
the PHITS reader: a particle whose pdgcode is 0 is skipped (one warning
printed for it, nothing appended); any other particle is translated with
phits2mcpl2_fill and appended.  Returns the appended particles in source
order together with the number of skipped records. -/
def phits2mcpl2_loop : List PhitsParticle → List McplParticle × Nat
  | [] => ([], 0)
  | p :: ps =>
    let rest := phits2mcpl2_loop ps
    if p.pdgcode = 0 then (rest.1, rest.2 + 1)
    else (phits2mcpl2_fill p :: rest.1, rest.2)

/-- Result of one phits2mcpl2 invocation: the C return value (1 = ok),
the particles appended to the MCPL output, the number of skipped records,
and whether the phits input handle and the mcpl output handle were closed
before returning (the ancillary-failure early returns skip both
phits_close_file and mcpl_close_outfile). -/
structure P2MResult where
  ok : Bool
  written : List McplParticle
  skipped : Nat
  handlesClosed : Bool
  deriving DecidableEq

/-- phits2mcpl2: after opening the phits source and creating the MCPL
output, optionally embed the input deck and the dump summary file (each
must load via phitsmcpl_file2buf and contain the word "dump"; the first
failure returns 0 immediately, before any particle is read or written and
without closing the two handles), then run the conversion loop over the
source records as exposed by the reader view. -/
def phits2mcpl2 (inputdeck dumpsummary : Option AncFile)
    (records : List PhitsRecord) : P2MResult :=
  if anc_ok inputdeck = false then
    { ok := false, written := [], skipped := 0, handlesClosed := false }
  else if anc_ok dumpsummary = false then
    { ok := false, written := [], skipped := 0, handlesClosed := false }
  else
    let res := phits2mcpl2_loop (records.map phits_load_view)
    { ok := true, written := res.1, skipped := res.2, handlesClosed := true }

/-- The payload mcpl2phits hands to phits_writerecord for one record:
the first 10 doubles of dumpdata, extended by the three polarisation
doubles when use_polarisation is set (13-field record). -/
def mcpl2phits_payload (use_polarisation : Bool) (r : PhitsRecord) : List ℚ :=
  [(r.rawtype : ℚ), r.x, r.y, r.z, r.dx, r.dy, r.dz, r.ekin, r.weight, r.time]
    ++ (if use_polarisation = true then [r.polx, r.poly, r.polz] else [])

/-- One framed record of the PHITS dump output at the level of values:
the two marker values (each the payload byte length reduced modulo the
marker width) bracketing the payload doubles; each double occupies
8 bytes on the wire. -/
structure PhitsFrame where
  lead : Nat
  payload : List ℚ
  trail : Nat
  deriving DecidableEq

/-- The framed record mcpl2phits emits for one translated particle:
payload byte length is 8 bytes per double, and both markers carry that
length as an unsigned integer of reclen bytes. -/
def mcpl2phits_frame (use_polarisation : Bool) (reclen : Nat)
    (r : PhitsRecord) : PhitsFrame :=
  let pay := mcpl2phits_payload use_polarisation r
  let lbuf := 8 * pay.length
  { lead := lbuf % 2 ^ (8 * reclen), payload := pay, trail := lbuf % 2 ^ (8 * reclen) }

/-- Result of the mcpl2phits conversion loop: the framed records written,
the final used (written) and skipped_nophitstype counters, and the
remaining count reported when the particle limit stopped the loop
(none when the loop ran to the end of the source). -/
structure M2PResult where
  frames : List PhitsFrame
  used : Int
  skipped : Int
  remaining : Option Int
  deriving DecidableEq

/-- The read loop of mcpl2phits: for each MCPL particle, translate its
PDG code with conv_code_pdg2phits; code 0 increments
skipped_nophitstype and skips the record; otherwise the dumpdata record
is filled, framed and written, used is incremented, and when used reaches
the (positive) limit the loop breaks, reporting
total - skipped - used remaining particles ignored. -/
def mcpl2phits_loop (use_polarisation : Bool) (reclen : Nat)
    (limit total : Int) :
    List McplParticle → Int → Int → M2PResult
  | [], used, skipped =>
    { frames := [], used := used, skipped := skipped, remaining := none }
  | p :: ps, used, skipped =>
    if conv_code_pdg2phits p.pdgcode = 0 then
      mcpl2phits_loop use_polarisation reclen limit total ps used (skipped + 1)
    else
      let fr := mcpl2phits_frame use_polarisation reclen (mcpl2phits_record p)
      if used + 1 = limit then
        { frames := [fr], used := used + 1, skipped := skipped
          remaining := some (total - skipped - (used + 1)) }
      else
        let res := mcpl2phits_loop use_polarisation reclen limit total ps (used + 1) skipped
        { frames := fr :: res.frames, used := res.used, skipped := res.skipped
          remaining := res.remaining }

/-- mcpl2phits: run the conversion loop over the whole MCPL source with
both counters starting at 0; the total record count reported by the MCPL
header equals the number of particles in the source. -/
def mcpl2phits (use_polarisation : Bool) (nparticles_limit : Int)
    (reclen : Nat) (ps : List McplParticle) : M2PResult :=
  mcpl2phits_loop use_polarisation reclen nparticles_limit (ps.length : Int) ps 0 0

/-- The number of particles of a source that have a nonzero PHITS
mapping (the ones the mcpl2phits loop converts). -/
def mcplConvertibleCount (ps : List McplParticle) : Nat :=
  ps.countP fun p => decide (conv_code_pdg2phits p.pdgcode ≠ 0)

/-- Sample MCPL particle: an electron (PDG code 11), which has a PHITS
mapping. -/
def electronParticle : McplParticle :=
  { pdgcode := 11, posx := 1, posy := 2, posz := 3
    dirx := 0, diry := 0, dirz := 1
    polx := 0, poly := 0, polz := 0
    ekin := 5 / 2, weight := 1, time := 7 }

/-- Sample MCPL particle with standardized code 0 (unknown species). -/
def zeroCodeParticle : McplParticle :=
  { pdgcode := 0, posx := 0, posy := 0, posz := 0
    dirx := 1, diry := 0, dirz := 0
    polx := 0, poly := 0, polz := 0
    ekin := 1, weight := 1, time := 0 }

/-- Sample MCPL particle whose standardized code has no PHITS mapping. -/
def unmappedParticle : McplParticle :=
  { pdgcode := 12345, posx := 0, posy := 0, posz := 0
    dirx := 0, diry := 1, dirz := 0
    polx := 0, poly := 0, polz := 0
    ekin := 2, weight := 1, time := 1 }

/-- Sample PHITS dump record (all fields zero; rawtype 0 is unmapped). -/
def sampleRecord : PhitsRecord :=
  { rawtype := 0, x := 0, y := 0, z := 0, dx := 0, dy := 0, dz := 0
    ekin := 0, weight := 0, time := 0, polx := 0, poly := 0, polz := 0 }

lemma buf_is_text_eq_true_iff (buf : List UInt8) :
    phitsmcpl_buf_is_text buf = true ↔
      ∀ b ∈ buf,
        (9 ≤ b.toNat ∧ b.toNat ≤ 13) ∨ (32 ≤ b.toNat ∧ b.toNat ≤ 126) ∨ 128 ≤ b.toNat := by
  simp [phitsmcpl_buf_is_text, List.all_eq_true]

/-- C4: phitsmcpl_buf_is_text accepts a buffer exactly when every byte is
in [9,13], in [32,126] or at least 128; a buffer containing a byte in
[0,8], in [14,31] or equal to 127 is classified as not text. -/
theorem buf_is_text_ranges (buf : List UInt8) :
    (phitsmcpl_buf_is_text buf = true ↔
      ∀ b ∈ buf,
        (9 ≤ b.toNat ∧ b.toNat ≤ 13) ∨ (32 ≤ b.toNat ∧ b.toNat ≤ 126) ∨ 128 ≤ b.toNat)
    ∧ ∀ b ∈ buf, (b.toNat ≤ 8 ∨ (14 ≤ b.toNat ∧ b.toNat ≤ 31) ∨ b.toNat = 127) →
        phitsmcpl_buf_is_text buf = false := by
  refine ⟨buf_is_text_eq_true_iff buf, ?_⟩
  intro b hb hbad
  cases htext : phitsmcpl_buf_is_text buf with
  | false => rfl
  | true =>
    exfalso
    have := (buf_is_text_eq_true_iff buf).mp htext b hb
    omega

/-- Witness for C4 at concrete buffers: printable text with a newline is
accepted; a buffer containing the byte 0 is rejected. -/
theorem buf_is_text_ranges_witness :
    phitsmcpl_buf_is_text [72, 101, 108, 108, 111, 10] = true ∧
    phitsmcpl_buf_is_text [72, 0, 108] = false :=
  ⟨(buf_is_text_ranges [72, 101, 108, 108, 111, 10]).1.mpr (by decide),
   (buf_is_text_ranges [72, 0, 108]).2 0 (by decide) (by decide)⟩

/-- C10: the classifier vacuously accepts the empty buffer, and an empty
(seekable) ancillary file is rejected by phitsmcpl_file2buf through the
minimum-size check, before the text check is ever reached. -/
theorem buf_is_text_empty_and_min_size :
    phitsmcpl_buf_is_text [] = true
    ∧ (phitsmcpl_file2buf (some []) true true true true).err = some F2BError.tooShort
    ∧ (phitsmcpl_file2buf (some []) true true true true).buf = none := by
  refine ⟨rfl, ?_, ?_⟩ <;> decide

/-- C2: the only unit transform in either direction is on the time
field: mcpl2phits multiplies time by 1.0e-6 and phits2mcpl2 multiplies
time by 1.0e6, while position, direction, energy and weight are copied
unchanged in both directions. -/
theorem unit_transforms_only_time (p : McplParticle) (q : PhitsParticle) :
    (mcpl2phits_record p).time = p.time * (1 / 1000000)
    ∧ (mcpl2phits_record p).x = p.posx
    ∧ (mcpl2phits_record p).y = p.posy
    ∧ (mcpl2phits_record p).z = p.posz
    ∧ (mcpl2phits_record p).dx = p.dirx
    ∧ (mcpl2phits_record p).dy = p.diry
    ∧ (mcpl2phits_record p).dz = p.dirz
    ∧ (mcpl2phits_record p).ekin = p.ekin
    ∧ (mcpl2phits_record p).weight = p.weight
    ∧ (phits2mcpl2_fill q).time = q.time * 1000000
    ∧ (phits2mcpl2_fill q).posx = q.x
    ∧ (phits2mcpl2_fill q).posy = q.y
    ∧ (phits2mcpl2_fill q).posz = q.z
    ∧ (phits2mcpl2_fill q).dirx = q.dirx
    ∧ (phits2mcpl2_fill q).diry = q.diry
    ∧ (phits2mcpl2_fill q).dirz = q.dirz
    ∧ (phits2mcpl2_fill q).ekin = q.ekin
    ∧ (phits2mcpl2_fill q).weight = q.weight :=
  ⟨rfl, rfl, rfl, rfl, rfl, rfl, rfl, rfl, rfl,
   rfl, rfl, rfl, rfl, rfl, rfl, rfl, rfl, rfl⟩

lemma conv_code_pdg2phits_leftinv (c : Int) (h : conv_code_pdg2phits c ≠ 0) :
    conv_code_phits2pdg (conv_code_pdg2phits c) = c := by
  unfold conv_code_pdg2phits at h ⊢
  split_ifs at h ⊢ with h1 h2 h3 h4
  · simp [conv_code_phits2pdg, h1]
  · simp [conv_code_phits2pdg, h2]
  · simp [conv_code_phits2pdg, h3]
  · simp [conv_code_phits2pdg, h4]
  · exact absurd rfl h

/-- C1: for every particle whose PDG code has a nonzero PHITS mapping,
translating with the mcpl2phits field translation and back with the
phits2mcpl2 field translation (through the reader view) restores the
particle exactly: type code, position, direction, energy, weight and
polarisation verbatim, and time through the exact composition of the
multiplications by 1.0e-6 and 1.0e6. -/
theorem mcpl2phits_roundtrip (p : McplParticle)
    (h : conv_code_pdg2phits p.pdgcode ≠ 0) :
    phits2mcpl2_fill (phits_load_view (mcpl2phits_record p)) = p := by
  have hc := conv_code_pdg2phits_leftinv p.pdgcode h
  ext <;>
    simp [phits2mcpl2_fill, phits_load_view, mcpl2phits_record, hc]

/-- Witness for C1 at the electron: its PHITS mapping is nonzero and the
round trip restores it. -/
theorem mcpl2phits_roundtrip_witness :
    conv_code_pdg2phits electronParticle.pdgcode ≠ 0
    ∧ phits2mcpl2_fill (phits_load_view (mcpl2phits_record electronParticle)) =
        electronParticle :=
  ⟨by decide, mcpl2phits_roundtrip electronParticle (by decide)⟩

/-- C3: for every payload and marker width in {4,8}, phits_writerecord
emits exactly the leading marker (the payload byte length encoded as an
unsigned integer of reclen bytes), the payload verbatim, and a trailing
marker identical to the leading one; a short transfer in any of the three
writes is a fatal failure; and the payload length mcpl2phits passes is
8 bytes per double for 13 doubles (polarisation enabled) or 10 doubles
(polarisation disabled). -/
theorem writerecord_frames (reclen : Nat) (buf : List UInt8) (w1 w2 w3 : Bool)
    (_hrl : reclen = 4 ∨ reclen = 8) :
    (w1 = true ∧ w2 = true ∧ w3 = true →
      phits_writerecord reclen buf w1 w2 w3 =
        (uintBytesLE reclen buf.length ++ buf ++ uintBytesLE reclen buf.length, true))
    ∧ (w1 = false ∨ w2 = false ∨ w3 = false →
        (phits_writerecord reclen buf w1 w2 w3).2 = false)
    ∧ (∀ (use_polarisation : Bool) (r : PhitsRecord),
        (mcpl2phits_payload use_polarisation r).length =
          (if use_polarisation = true then 13 else 10)
        ∧ 8 * (mcpl2phits_payload use_polarisation r).length =
            (if use_polarisation = true then 8 * 13 else 8 * 10)) := by
  refine ⟨?_, ?_, ?_⟩
  · rintro ⟨rfl, rfl, rfl⟩
    rfl
  · intro h
    cases w1 <;> cases w2 <;> cases w3 <;> simp_all [phits_writerecord]
  · intro up r
    cases up <;> simp [mcpl2phits_payload]

/-- Witness for C3 at a concrete 3-byte payload with 4-byte markers: the
successful frame, a failed middle write, and the 10-double payload
length. -/
theorem writerecord_frames_witness :
    phits_writerecord 4 [1, 2, 3] true true true =
      (uintBytesLE 4 3 ++ [1, 2, 3] ++ uintBytesLE 4 3, true)
    ∧ (phits_writerecord 4 [1, 2, 3] true false true).2 = false
    ∧ (mcpl2phits_payload false sampleRecord).length = 10 := by
  refine ⟨?_, ?_, ?_⟩
  · exact (writerecord_frames 4 [1, 2, 3] true true true (Or.inl rfl)).1 ⟨rfl, rfl, rfl⟩
  · exact (writerecord_frames 4 [1, 2, 3] true false true (Or.inl rfl)).2.1
      (Or.inr (Or.inl rfl))
  · simpa using
      ((writerecord_frames 4 [] true true true (Or.inl rfl)).2.2 false sampleRecord).1

lemma phits2mcpl2_loop_spec (ps : List PhitsParticle) :
    phits2mcpl2_loop ps =
      ((ps.filter fun p => decide (p.pdgcode ≠ 0)).map phits2mcpl2_fill,
       (ps.filter fun p => decide (p.pdgcode = 0)).length) := by
  induction ps with
  | nil => rfl
  | cons p ps ih =>
    simp only [phits2mcpl2_loop, ih]
    by_cases h : p.pdgcode = 0 <;> simp [h, List.filter_cons]

/-- C6: over every list of source records, the phits2mcpl2 loop appends
exactly the translations of the records whose legacy type code has a
standardized mapping, counts one skip (one warning) for every record
whose code is unmapped, and never aborts. -/
theorem phits2mcpl2_skips_unmapped (records : List PhitsRecord) :
    (phits2mcpl2 none none records).written =
      ((records.filter fun r => decide (conv_code_phits2pdg r.rawtype ≠ 0)).map
        fun r => phits2mcpl2_fill (phits_load_view r))
    ∧ (phits2mcpl2 none none records).skipped =
        (records.filter fun r => decide (conv_code_phits2pdg r.rawtype = 0)).length
    ∧ (phits2mcpl2 none none records).ok = true := by
  have h := phits2mcpl2_loop_spec (records.map phits_load_view)
  refine ⟨?_, ?_, rfl⟩
  · show (phits2mcpl2_loop (records.map phits_load_view)).1 = _
    rw [h]
    rw [List.filter_map, List.map_map]
    rfl
  · show (phits2mcpl2_loop (records.map phits_load_view)).2 = _
    rw [h]
    show (List.filter (fun p => decide (p.pdgcode = 0))
      (records.map phits_load_view)).length = _
    rw [List.filter_map, List.length_map]
    rfl

/-- The ancillary-file inputs for a seekable 10-byte file (below the
50-byte minimum). -/
def shortAnc : AncFile :=
  { content := some (List.replicate 10 100), seekable := true
    rewindOk := true, readOk := true }

/-- C9 (code bug): on the too-short early-return path,
phitsmcpl_file2buf returns without ever calling fclose on the handle it
opened, and the ancillary-failure early return of phits2mcpl2 likewise
returns without closing the phits input handle or the mcpl output
handle; the handle-release claim fails on these paths. -/
theorem file2buf_leaks_handle_on_short_file :
    (phitsmcpl_file2buf (some (List.replicate 10 100)) true true true true).leaked = true
    ∧ (phitsmcpl_file2buf (some (List.replicate 10 100)) true true true true).err =
        some F2BError.tooShort
    ∧ (phits2mcpl2 (some shortAnc) none [sampleRecord]).handlesClosed = false := by
  refine ⟨?_, ?_, ?_⟩ <;> decide

/-- The three-particle source of the end-to-end scenario: one electron
(mapped in both schemes), one particle with standardized code 0, one
particle with an unmapped standardized code. -/
def scenario3 : List McplParticle := [electronParticle, zeroCodeParticle, unmappedParticle]

/-- Counterexample to C5: in the three-particle scenario (4-byte markers,
polarisation disabled, no limit), the final skip count of mcpl2phits is
not 1: the code-0 particle is not filtered upstream of the skip counter
(conv_code_pdg2phits 0 = 0, so it is counted as skipped like the
unmapped-code particle). -/
theorem mcpl2phits_scenario3_skip_not_one :
    ¬ ((mcpl2phits false 0 4 scenario3).skipped = 1) := by decide

/-- C5 as amended: the scenario produces exactly one framed record whose
payload is 10 doubles (80 bytes) bracketed by two 4-byte markers each
encoding 80, and the final skip count is 2 (both the code-0 particle and
the unmapped-code particle are counted as skipped). -/
theorem mcpl2phits_scenario3_output :
    (mcpl2phits false 0 4 scenario3).frames =
      [mcpl2phits_frame false 4 (mcpl2phits_record electronParticle)]
    ∧ (mcpl2phits_frame false 4 (mcpl2phits_record electronParticle)).lead = 80
    ∧ (mcpl2phits_frame false 4 (mcpl2phits_record electronParticle)).trail = 80
    ∧ 8 * (mcpl2phits_frame false 4 (mcpl2phits_record electronParticle)).payload.length = 80
    ∧ (mcpl2phits false 0 4 scenario3).skipped = 2
    ∧ (mcpl2phits false 0 4 scenario3).used = 1 := by
  refine ⟨rfl, ?_, ?_, ?_, ?_, ?_⟩ <;> decide

lemma mcpl2phits_loop_used_of_lt (up : Bool) (rl : Nat) (limit total : Int) :
    ∀ (ps : List McplParticle) (used skipped : Int), used < limit →
      (mcpl2phits_loop up rl limit total ps used skipped).used =
        min limit (used + (mcplConvertibleCount ps : Int)) := by
  intro ps
  induction ps with
  | nil =>
    intro used skipped h
    simp only [mcpl2phits_loop, mcplConvertibleCount, List.countP_nil]
    rw [Int.natCast_zero, add_zero, min_eq_right (le_of_lt h)]
  | cons p ps ih =>
    intro used skipped h
    simp only [mcpl2phits_loop]
    by_cases hc : conv_code_pdg2phits p.pdgcode = 0
    · rw [if_pos hc, ih _ _ h]
      have hcnt : mcplConvertibleCount (p :: ps) = mcplConvertibleCount ps := by
        simp [mcplConvertibleCount, List.countP_cons, hc]
      rw [hcnt]
    · rw [if_neg hc]
      have hcnt : (mcplConvertibleCount (p :: ps) : Int) =
          (mcplConvertibleCount ps : Int) + 1 := by
        simp [mcplConvertibleCount, List.countP_cons, hc]
      by_cases hl : used + 1 = limit
      · rw [if_pos hl]
        dsimp only
        rw [hcnt]
        have h0 : (0 : Int) ≤ (mcplConvertibleCount ps : Int) := Int.natCast_nonneg _
        have hle : limit ≤ used + ((mcplConvertibleCount ps : Int) + 1) := by omega
        rw [min_eq_left hle]
        omega
      · rw [if_neg hl]
        dsimp only
        have h' : used + 1 < limit := by omega
        rw [ih _ _ h', hcnt]
        congr 1
        omega

lemma mcpl2phits_loop_used_unlimited (up : Bool) (rl : Nat) (limit total : Int)
    (hlim : limit ≤ 0) :
    ∀ (ps : List McplParticle) (used skipped : Int), 0 ≤ used →
      (mcpl2phits_loop up rl limit total ps used skipped).used =
        used + (mcplConvertibleCount ps : Int) := by
  intro ps
  induction ps with
  | nil =>
    intro used skipped h
    simp [mcpl2phits_loop, mcplConvertibleCount]
  | cons p ps ih =>
    intro used skipped h
    simp only [mcpl2phits_loop]
    by_cases hc : conv_code_pdg2phits p.pdgcode = 0
    · rw [if_pos hc, ih _ _ h]
      have hcnt : mcplConvertibleCount (p :: ps) = mcplConvertibleCount ps := by
        simp [mcplConvertibleCount, List.countP_cons, hc]
      rw [hcnt]
    · rw [if_neg hc]
      have hcnt : (mcplConvertibleCount (p :: ps) : Int) =
          (mcplConvertibleCount ps : Int) + 1 := by
        simp [mcplConvertibleCount, List.countP_cons, hc]
      have hl : ¬ (used + 1 = limit) := by omega
      rw [if_neg hl]
      dsimp only
      rw [ih _ _ (by omega), hcnt]
      ring

lemma mcpl2phits_loop_frames_length (up : Bool) (rl : Nat) (limit total : Int) :
    ∀ (ps : List McplParticle) (used skipped : Int),
      ((mcpl2phits_loop up rl limit total ps used skipped).frames.length : Int) =
        (mcpl2phits_loop up rl limit total ps used skipped).used - used := by
  intro ps
  induction ps with
  | nil =>
    intro used skipped
    simp [mcpl2phits_loop]
  | cons p ps ih =>
    intro used skipped
    simp only [mcpl2phits_loop]
    by_cases hc : conv_code_pdg2phits p.pdgcode = 0
    · rw [if_pos hc, ih]
    · rw [if_neg hc]
      by_cases hl : used + 1 = limit
      · rw [if_pos hl]
        simp
      · rw [if_neg hl]
        dsimp only
        rw [List.length_cons]
        push_cast
        rw [ih]
        ring

lemma mcpl2phits_loop_remaining (up : Bool) (rl : Nat) (limit total : Int) :
    ∀ (ps : List McplParticle) (used skipped r : Int),
      (mcpl2phits_loop up rl limit total ps used skipped).remaining = some r →
      r = total - (mcpl2phits_loop up rl limit total ps used skipped).skipped
            - (mcpl2phits_loop up rl limit total ps used skipped).used := by
  intro ps
  induction ps with
  | nil =>
    intro used skipped r h
    simp [mcpl2phits_loop] at h
  | cons p ps ih =>
    intro used skipped r h
    simp only [mcpl2phits_loop] at h ⊢
    by_cases hc : conv_code_pdg2phits p.pdgcode = 0
    · rw [if_pos hc] at h ⊢
      exact ih _ _ _ h
    · rw [if_neg hc] at h ⊢
      by_cases hl : used + 1 = limit
      · rw [if_pos hl] at h ⊢
        dsimp only at h ⊢
        injection h with h
        omega
      · rw [if_neg hl] at h ⊢
        dsimp only at h ⊢
        exact ih _ _ _ h

/-- The five-particle source of the limit scenario: five convertible
(electron) records. -/
def scenario5 : List McplParticle := List.replicate 5 electronParticle

/-- C7: with a positive limit L the mcpl2phits loop writes
min L (convertible records) particles and stops right after the L-th
write (one frame per written particle, skips not counted toward L);
limit 0 means unlimited; the ignored-remaining count reported when the
limit is reached equals total - skipped - written; and a limit of 2
against a source of 5 convertible records writes exactly 2 particles and
reports 3 ignored. -/
theorem mcpl2phits_limit_behaviour (up : Bool) (rl : Nat)
    (ps : List McplParticle) (L : Int) (hL : 0 < L) :
    (mcpl2phits up L rl ps).used = min L (mcplConvertibleCount ps : Int)
    ∧ ((mcpl2phits up L rl ps).frames.length : Int) = (mcpl2phits up L rl ps).used
    ∧ (mcpl2phits up 0 rl ps).used = (mcplConvertibleCount ps : Int)
    ∧ (∀ r, (mcpl2phits up L rl ps).remaining = some r →
        r = (ps.length : Int) - (mcpl2phits up L rl ps).skipped
              - (mcpl2phits up L rl ps).used)
    ∧ (mcpl2phits true 2 4 scenario5).used = 2
    ∧ (mcpl2phits true 2 4 scenario5).frames.length = 2
    ∧ (mcpl2phits true 2 4 scenario5).remaining = some 3 := by
  refine ⟨?_, ?_, ?_, ?_, ?_, ?_, ?_⟩
  · have h := mcpl2phits_loop_used_of_lt up rl L (ps.length : Int) ps 0 0 hL
    simpa [mcpl2phits] using h
  · have h := mcpl2phits_loop_frames_length up rl L (ps.length : Int) ps 0 0
    simpa [mcpl2phits] using h
  · have h := mcpl2phits_loop_used_unlimited up rl 0 (ps.length : Int) le_rfl ps 0 0 le_rfl
    simpa [mcpl2phits] using h
  · intro r h
    exact mcpl2phits_loop_remaining up rl L (ps.length : Int) ps 0 0 r h
  · decide
  · decide
  · decide

/-- Witness for C7 at the five-electron source with limit 2. -/
theorem mcpl2phits_limit_behaviour_witness :
    (mcpl2phits true 2 4 scenario5).used = min 2 (mcplConvertibleCount scenario5 : Int) :=
  (mcpl2phits_limit_behaviour true 4 scenario5 2 (by decide)).1

end PhitsMcpl
